import Mathlib

/-!
Verification development for the OpenCode agent runner
(`src/container/agent-runner/src/opencode-runner.ts`).

The worker-side protocol code is embedded shallowly:

* The IPC input directory is a finite association list from file names to
  record contents; JavaScript string comparison (`Array.prototype.sort` on
  file names, code-unit order) and `String.prototype.endsWith` are modelled
  over `List Char`.
* `drainIpcInput`, `shouldClose` and `waitForIpcMessage` are translated
  directly from the source; filesystem exceptions that the source catches
  (missing root, deletion races, unreadable records) appear as explicit
  record states or `Option` roots, so every operation is total exactly
  where the source swallows the exception.
* The main query loop (`runOpenCode`, lines 229-287) is a function from a
  script of per-round external behaviour (backend reply, notification
  events, mailbox snapshots) to the list of emissions (marker-framed stdout
  frames and stderr log lines) it produces.
-/

namespace Nanoclaw

/-- Code-unit comparison of two character lists, the order used by
JavaScript `Array.prototype.sort()` on strings: lexicographic on code
units, a proper prefix sorting first.  `charListLe a b` means `a ≤ b`. -/
def charListLe : List Char → List Char → Bool
  | [], _ => true
  | _ :: _, [] => false
  | x :: xs, y :: ys =>
    if x.toNat < y.toNat then true
    else if y.toNat < x.toNat then false
    else charListLe xs ys

/-- JavaScript string order (`a <= b`) on Lean strings. -/
def nameLeR (a b : String) : Prop := charListLe a.data b.data = true

instance : DecidableRel nameLeR := fun a b => instDecidableEqBool _ _

lemma charListLe_trans :
    ∀ xs ys zs : List Char, charListLe xs ys = true → charListLe ys zs = true →
      charListLe xs zs = true := by
  intro xs
  induction xs with
  | nil => intro ys zs _ _; simp [charListLe]
  | cons x xs ih =>
    intro ys zs h1 h2
    cases ys with
    | nil => simp [charListLe] at h1
    | cons y ys =>
      cases zs with
      | nil => simp [charListLe] at h2
      | cons z zs =>
        simp only [charListLe] at h1 h2 ⊢
        by_cases hxy : x.toNat < y.toNat
        · by_cases hyz : y.toNat < z.toNat
          · have hxz : x.toNat < z.toNat := by omega
            simp [hxz]
          · rw [if_neg hyz] at h2
            by_cases hzy : z.toNat < y.toNat
            · rw [if_pos hzy] at h2; simp at h2
            · have hxz : x.toNat < z.toNat := by omega
              simp [hxz]
        · rw [if_neg hxy] at h1
          by_cases hyx : y.toNat < x.toNat
          · rw [if_pos hyx] at h1; simp at h1
          · rw [if_neg hyx] at h1
            by_cases hyz : y.toNat < z.toNat
            · have hxz : x.toNat < z.toNat := by omega
              simp [hxz]
            · rw [if_neg hyz] at h2
              by_cases hzy : z.toNat < y.toNat
              · rw [if_pos hzy] at h2; simp at h2
              · rw [if_neg hzy] at h2
                have hn1 : ¬ x.toNat < z.toNat := by omega
                have hn2 : ¬ z.toNat < x.toNat := by omega
                rw [if_neg hn1, if_neg hn2]
                exact ih ys zs h1 h2

lemma charListLe_total :
    ∀ xs ys : List Char, charListLe xs ys = true ∨ charListLe ys xs = true := by
  intro xs
  induction xs with
  | nil => intro ys; left; simp [charListLe]
  | cons x xs ih =>
    intro ys
    cases ys with
    | nil => right; simp [charListLe]
    | cons y ys =>
      simp only [charListLe]
      by_cases hxy : x.toNat < y.toNat
      · left; simp [hxy]
      · by_cases hyx : y.toNat < x.toNat
        · right; simp [hyx]
        · rw [if_neg hxy, if_neg hyx, if_neg hyx, if_neg hxy]
          exact ih ys

instance : IsTrans String nameLeR := ⟨fun a b c => charListLe_trans a.data b.data c.data⟩

instance : IsTotal String nameLeR := ⟨fun a b => charListLe_total a.data b.data⟩

/-- JavaScript `s.endsWith(post)`. -/
def strEndsWith (s post : String) : Bool := post.data.isSuffixOf s.data

/-- JavaScript `Array.prototype.sort()` on an array of file names (default
string comparator).  Directory listings have pairwise-distinct names, so
any comparison sort yields this result; an insertion sort is used because
it evaluates inside the kernel. -/
def nameSort (l : List String) : List String := List.insertionSort nameLeR l

/-! ## Mailbox (IPC input directory)

The source constants (lines 37-39):
`IPC_INPUT_DIR = '/workspace/ipc/input'`,
`IPC_INPUT_CLOSE_SENTINEL = path.join(IPC_INPUT_DIR, '_close')`.
Records are modelled relative to the root, so the sentinel is the record
named `"_close"`. -/

/-- Name of the close-sentinel record inside the IPC input directory. -/
def IPC_CLOSE_NAME : String := "_close"

/-- The observable content of one record file, as seen by `drainIpcInput`:
what `JSON.parse(fs.readFileSync(...))` plus the `data.type === 'message'
&& data.text` check can distinguish.

* `message t` — parses as `{type:"message", text:t}`;
* `other` — valid JSON that is not a message with a (truthy) text field;
* `malformed` — `JSON.parse` throws;
* `vanished` — `readFileSync` throws because another actor already removed
  the file (deletion race). -/
inductive Rec where
  | message (text : String)
  | other
  | malformed
  | vanished
deriving DecidableEq

/-- A directory: an association list of (file name, record content). -/
abbrev Dir : Type := List (String × Rec)

/-- The payload `drainIpcInput` keeps for one record: the `text` field when
`data.type === 'message' && data.text` holds (an empty text is falsy in
JavaScript), nothing otherwise. -/
def recPayload : Rec → Option String
  | .message t => if t = "" then none else some t
  | _ => none

/-- `fs.readFileSync` on a name within a directory listing. -/
def lookupRec (d : Dir) (f : String) : Option Rec :=
  (d.find? (fun r => decide (r.1 = f))).map Prod.snd

/-- `fs.unlinkSync` of name `f` (file names are distinct, so removing every
association with name `f` removes exactly the record). -/
def eraseRec (d : Dir) (f : String) : Dir :=
  d.filter (fun r => decide (r.1 ≠ f))

/-- `fs.readdirSync(IPC_INPUT_DIR).filter(f => f.endsWith('.json'))`
(lines 62-63). -/
def jsonNames (d : Dir) : List String :=
  (d.map Prod.fst).filter (fun f => strEndsWith f ".json")

/-- The per-file loop of `drainIpcInput` (lines 66-79): for each listed
name in order, read and parse the record, delete it (the `catch` branch
also deletes, ignoring a failed unlink), and keep the text of well-formed
message records. A failed read (`vanished`, or a name no longer present)
lands in the `catch` branch: logged, deleted, skipped. -/
def drainLoop : Dir → List String → List String × Dir
  | d, [] => ([], d)
  | d, f :: fs =>
    let payload : Option String :=
      match lookupRec d f with
      | some r => recPayload r
      | none => none
    let rest := drainLoop (eraseRec d f) fs
    (match payload with
     | some t => t :: rest.1
     | none => rest.1,
     rest.2)

/-- `drainIpcInput` (lines 59-85) on an existing root: list the `.json`
records, sort the names, process each in order; returns the collected
message texts and the directory as it is left. -/
def drainIpcInput (d : Dir) : List String × Dir :=
  drainLoop d (nameSort (jsonNames d))

/-- `drainIpcInput` including the `fs.mkdirSync(IPC_INPUT_DIR, {recursive:
true})` on line 61: a missing root is created empty, then drained. -/
def drainIpcInputRoot : Option Dir → List String × Dir
  | none => drainIpcInput []
  | some d => drainIpcInput d

/-- `shouldClose` (lines 51-57): if the sentinel record exists, remove it
(ignoring a failed unlink) and report `true`; otherwise report `false`. -/
def shouldClose (d : Dir) : Bool × Dir :=
  if IPC_CLOSE_NAME ∈ d.map Prod.fst then (true, eraseRec d IPC_CLOSE_NAME)
  else (false, d)

/-- `shouldClose` when the mailbox root itself may be missing:
`fs.existsSync` is `false` on a missing path, so the check reports `false`
without error. -/
def shouldCloseRoot : Option Dir → Bool × Option Dir
  | none => (false, none)
  | some d => ((shouldClose d).1, some (shouldClose d).2)

/-- Modelled from the spec: `requestClose()` — the Orchestrator-side
operation that "creates the sentinel record (idempotent: creating it twice
is harmless)".  The Orchestrator implementation is not part of the worker
source under study; creating a file that already exists just rewrites its
content, so presence of the sentinel name is what the operation
establishes. -/
def requestClose (d : Dir) : Dir :=
  if IPC_CLOSE_NAME ∈ d.map Prod.fst then d else (IPC_CLOSE_NAME, Rec.other) :: d

/-- One iteration of the `poll` closure inside `waitForIpcMessage`
(lines 89-100), applied to the directory as the poll observes it:
the sentinel check runs first; otherwise drained messages, if any, are
joined with `'\n'`; otherwise the poll re-arms. -/
def pollStep (d : Dir) : Option (Option String) :=
  if (shouldClose d).1 then some none
  else
    let msgs := (drainIpcInput d).1
    if msgs.isEmpty then none else some (some (String.intercalate "\n" msgs))

/-- `waitForIpcMessage` (lines 87-103) over the sequence of directory
snapshots the successive polls observe.  `some none` is resolution with
`null` (close), `some (some m)` resolution with a joined message, `none`
means every scripted poll re-armed (the promise is still pending). -/
def waitForIpcMessage : List Dir → Option (Option String)
  | [] => none
  | d :: ds =>
    match pollStep d with
    | some r => some r
    | none => waitForIpcMessage ds

/-! ## Task envelope and result frames -/

/-- `modelProvider` field of `ContainerInput` (line 19). -/
structure ModelProvider where
  baseUrl : Option String
  apiKey : Option String
  model : Option String
deriving DecidableEq

/-- `opencodeConfig` field of `ContainerInput` (lines 21-25). -/
structure OpencodeConfig where
  provider : Option String
  apiKey : Option String
  model : Option String
deriving DecidableEq

/-- `ContainerInput` (lines 11-26), the task Envelope read once on stdin. -/
structure ContainerInput where
  prompt : String
  sessionId : Option String
  groupFolder : String
  chatJid : String
  isMain : Bool
  isScheduledTask : Option Bool
  secrets : List (String × String)
  modelProvider : Option ModelProvider
  runtime : Option String
  opencodeConfig : Option OpencodeConfig
deriving DecidableEq

/-- The `status` field of `ContainerOutput` (line 29). -/
inductive Status where
  | success
  | error
deriving DecidableEq

/-- `ContainerOutput` (lines 28-33), the payload of one Result Frame.
Optional fields that are absent are omitted by `JSON.stringify`. -/
structure ContainerOutput where
  status : Status
  result : Option String
  newSessionId : Option String
  error : Option String
deriving DecidableEq

/-- Line 35. -/
def OUTPUT_START_MARKER : String := "---NANOCLAW_OUTPUT_START---"

/-- Line 36. -/
def OUTPUT_END_MARKER : String := "---NANOCLAW_OUTPUT_END---"

/-- Lower-case hexadecimal digit. -/
def hexDigit : Nat → Char
  | 0 => '0' | 1 => '1' | 2 => '2' | 3 => '3' | 4 => '4'
  | 5 => '5' | 6 => '6' | 7 => '7' | 8 => '8' | 9 => '9'
  | 10 => 'a' | 11 => 'b' | 12 => 'c' | 13 => 'd' | 14 => 'e'
  | _ => 'f'

/-- JSON string-character escaping as performed by `JSON.stringify`: the
two mandatory escapes, the common control-character short forms, and the
`\u00XX` form for the remaining control characters.  Every character that
could break a line is escaped, which is what the framing protocol relies
on. -/
def jsonEscapeChar (c : Char) : List Char :=
  if c = '"' then ['\\', '"']
  else if c = '\\' then ['\\', '\\']
  else if c = '\n' then ['\\', 'n']
  else if c = '\r' then ['\\', 'r']
  else if c = '\t' then ['\\', 't']
  else if c.toNat < 32 then ['\\', 'u', '0', '0', hexDigit (c.toNat / 16), hexDigit (c.toNat % 16)]
  else [c]

/-- A JSON string literal for `s`. -/
def jsonQuote (s : String) : String :=
  "\"" ++ String.mk (s.data.flatMap jsonEscapeChar) ++ "\""

def statusStr : Status → String
  | .success => "success"
  | .error => "error"

/-- `JSON.stringify(output)` for a `ContainerOutput` literal: fields in
declaration order, `undefined` fields omitted. -/
def encodeOutput (o : ContainerOutput) : String :=
  "\x7b\"status\":" ++ jsonQuote (statusStr o.status)
    ++ ",\"result\":" ++ (match o.result with
      | some t => jsonQuote t
      | none => "null")
    ++ (match o.newSessionId with
      | some s => ",\"newSessionId\":" ++ jsonQuote s
      | none => "")
    ++ (match o.error with
      | some e => ",\"error\":" ++ jsonQuote e
      | none => "")
    ++ "\x7d"

/-- The three stdout lines `writeOutput` prints (lines 41-45). -/
def frameLines (o : ContainerOutput) : List String :=
  [OUTPUT_START_MARKER, encodeOutput o, OUTPUT_END_MARKER]

/-- Output channel of one printed line: `console.log` vs `console.error`. -/
inductive Channel where
  | stdout
  | stderr
deriving DecidableEq

/-- One externally visible emission of the runner: a whole Result Frame
(`writeOutput`, the only caller of `console.log`) or one diagnostic line
(`log`, line 47-49, the only caller of `console.error`). -/
inductive Emit where
  | frame (o : ContainerOutput)
  | logLine (s : String)
deriving DecidableEq

/-- Rendering of one emission to (channel, line) pairs. -/
def emitLines : Emit → List (Channel × String)
  | .frame o => (frameLines o).map (fun l => (Channel.stdout, l))
  | .logLine s => [(Channel.stderr, "[opencode-runner] " ++ s)]

/-- Every (channel, line) pair a run prints, in order. -/
def outTrace (es : List Emit) : List (Channel × String) :=
  es.flatMap emitLines

/-- The stdout lines of a run, in order. -/
def stdoutLines (es : List Emit) : List String :=
  (outTrace es).filterMap (fun cl => if cl.1 = Channel.stdout then some cl.2 else none)

/-- The Result Frames of a run, in order. -/
def framesOf (es : List Emit) : List ContainerOutput :=
  es.filterMap (fun e => match e with
    | .frame o => some o
    | .logLine _ => none)

/-! ## Backend reply, notification feed, and per-round frame -/

/-- One element of `response.data.parts` (`{type, text?}`, line 244). -/
structure MsgPart where
  type : String
  text : Option String
deriving DecidableEq

/-- `extractText` keeps a part when `p.type === 'text' && p.text` (truthy:
present and non-empty). -/
def partTruthyText (p : MsgPart) : Option String :=
  if p.type = "text" then
    match p.text with
    | some t => if t = "" then none else some t
    | none => none
  else none

/-- `extractText` (lines 157-162): filter the text parts and join their
texts with `''`. -/
def extractText (parts : List MsgPart) : String :=
  String.join (parts.filterMap partTruthyText)

/-- The `part` property of an SSE event (line 206). -/
structure EvPart where
  type : String
  text : Option String
deriving DecidableEq

/-- One SSE event as the event processor narrows it (lines 204-206). -/
structure Ev where
  type : String
  part : Option EvPart
deriving DecidableEq

/-- Effect of one event on `lastAssistantText` (lines 205-209): a
`message.part.updated` event whose part is a text part with truthy text
overwrites the tracked value; every other event leaves it unchanged. -/
def stepEvent (acc : String) (e : Ev) : String :=
  if e.type = "message.part.updated" then
    match e.part with
    | some p =>
      if p.type = "text" then
        match p.text with
        | some t => if t = "" then acc else t
        | none => acc
      else acc
    | none => acc
  else acc

/-- `lastAssistantText` after a round: reset to `''` at round start
(line 231), then folded over the round's events. -/
def processEvents (es : List Ev) : String :=
  es.foldl stepEvent ""

/-- Outcome of one `client.session.prompt` call as the round observes it:
either the promise resolves with `response.data.parts` present, resolves
without parts, or rejects (any backend error, a timeout included). -/
inductive BackendReply where
  | ok (parts : List MsgPart)
  | okNoParts
  | err (msg : String)
deriving DecidableEq

/-- The Result Frame payload one round emits (lines 233-266): on success,
the extracted text, `|| null`, with the `lastAssistantText` fallback when
the primary content is empty; on a rejected call, an error frame.  Both
carry the worker's session id. -/
def roundOutFrame (sid : String) (reply : BackendReply) (events : List Ev) : ContainerOutput :=
  let lastText := processEvents events
  match reply with
  | .ok parts =>
    let r0 := extractText parts
    let r1 : Option String := if r0 = "" then none else some r0
    let r2 : Option String :=
      match r1 with
      | some t => some t
      | none => if lastText = "" then none else some lastText
    ⟨.success, r2, some sid, none⟩
  | .okNoParts =>
    ⟨.success, if lastText = "" then none else some lastText, some sid, none⟩
  | .err m => ⟨.error, none, some sid, some m⟩

/-- The extra frame of line 275, emitted after a round when the close
sentinel was not observed, "so host can track" the session id. -/
def sessionUpdateFrame (sid : String) : ContainerOutput :=
  ⟨.success, none, some sid, none⟩

/-! ## Session resolution (INITIALIZING / RESOLVING_SESSION) -/

/-- What the backend would answer during session resolution: which session
ids currently exist in its storage, whether `session.create` fails, and
the fresh id a successful `session.create` returns. -/
structure BackendSessions where
  existing : List String
  createError : Option String
  freshId : String
deriving DecidableEq

/-- `client.session.create` (lines 186-192): a result carrying `error`
becomes a thrown `Error`, otherwise the created session's id is used. -/
def sessionCreate (b : BackendSessions) : Except String String :=
  match b.createError with
  | some e => .error ("Failed to create session: " ++ e)
  | none => .ok b.freshId

/-- The session id the worker actually uses, from lines 184-193 of the
source: the runner unconditionally calls `client.session.create`;
`containerInput.sessionId` is never consulted. -/
def resolveSession (containerInput : ContainerInput) (b : BackendSessions) : Except String String :=
  sessionCreate b

/-- The session-resolution rule as the spec words it (`RESOLVING_SESSION`):
"if the Envelope carries a prior session identifier, validate it against
the backend (existence check); if invalid or absent, create a new backend
session."  Declared only to compare against `resolveSession`, the
behaviour translated from the source. -/
def resolveSessionSpec (containerInput : ContainerInput) (b : BackendSessions) : Except String String :=
  match containerInput.sessionId with
  | some s => if s ∈ b.existing then .ok s else sessionCreate b
  | none => sessionCreate b

/-! ## The query loop (lines 228-287) -/

/-- External behaviour of one iteration of the query loop:

* `reply` — how `client.session.prompt` resolves for this round;
* `events` — the notification events the event processor folds into
  `lastAssistantText` during the round (reset at line 231);
* `closeDir` — the IPC directory as the `shouldClose()` check on line 269
  observes it;
* `polls` — the directory snapshots the successive `waitForIpcMessage`
  polls observe (the Orchestrator may write between polls). -/
structure RoundCtx where
  reply : BackendReply
  events : List Ev
  closeDir : Dir
  polls : List Dir
deriving DecidableEq

/-- The `while (true)` query loop (lines 229-287) as a function from the
current prompt and the script of external behaviour to the emissions the
loop produces, in order.  The loop body: log, query, emit exactly one
outcome frame (success or error — both paths of the `try`/`catch`), check
the close sentinel (break when present), emit the session-update frame,
wait for the next IPC message (break when it resolves `null`), and repeat
with the joined message as the next prompt.  An exhausted script means the
poll is still pending; the emissions so far are returned. -/
def runLoop (sid : String) : String → List RoundCtx → List Emit
  | _, [] => []
  | prompt, ctx :: rest =>
    Emit.logLine ("Sending prompt (" ++ toString prompt.length ++ " chars)...")
      :: (match ctx.reply with
          | .err m => Emit.logLine ("Query error: " ++ m)
          | _ => Emit.logLine "Got response...")
      :: Emit.frame (roundOutFrame sid ctx.reply ctx.events)
      :: (if (shouldClose ctx.closeDir).1 then
            [Emit.logLine "Close sentinel received after query, exiting"]
          else
            Emit.frame (sessionUpdateFrame sid)
              :: Emit.logLine "Waiting for next IPC message..."
              :: (match waitForIpcMessage ctx.polls with
                  | some none => [Emit.logLine "Close sentinel received, exiting"]
                  | some (some m) =>
                    Emit.logLine "Got new message, starting new query" :: runLoop sid m rest
                  | none => []))

/-! ## Library of facts about the embedded operations -/

lemma lookupRec_eraseRec_ne (d : Dir) (f g : String) (h : g ≠ f) :
    lookupRec (eraseRec d f) g = lookupRec d g := by
  induction d with
  | nil => rfl
  | cons r d ih =>
    by_cases hrf : r.1 = f
    · have hrg : ¬ r.1 = g := by rw [hrf]; exact fun he => h he.symm
      rw [show eraseRec (r :: d) f = eraseRec d f by simp [eraseRec, List.filter_cons, hrf]]
      rw [show lookupRec (r :: d) g = lookupRec d g by
            simp [lookupRec, List.find?_cons, hrg]]
      exact ih
    · rw [show eraseRec (r :: d) f = r :: eraseRec d f by
            simp [eraseRec, List.filter_cons, hrf]]
      by_cases hrg : r.1 = g
      · simp [lookupRec, List.find?_cons, hrg]
      · rw [show lookupRec (r :: eraseRec d f) g = lookupRec (eraseRec d f) g by
              simp [lookupRec, List.find?_cons, hrg]]
        rw [show lookupRec (r :: d) g = lookupRec d g by
              simp [lookupRec, List.find?_cons, hrg]]
        exact ih

lemma drainLoop_snd :
    ∀ (files : List String) (d : Dir),
      (drainLoop d files).2 = d.filter (fun r => decide (r.1 ∉ files)) := by
  intro files
  induction files with
  | nil => intro d; simp [drainLoop]
  | cons f fs ih =>
    intro d
    simp only [drainLoop]
    rw [ih (eraseRec d f)]
    simp only [eraseRec, List.filter_filter]
    apply List.filter_congr
    intro r _
    simp [List.mem_cons, not_or, Bool.and_comm]

lemma drainLoop_fst :
    ∀ (files : List String) (d : Dir), files.Nodup →
      (drainLoop d files).1 =
        files.filterMap (fun f => (lookupRec d f).bind recPayload) := by
  intro files
  induction files with
  | nil => intro d _; simp [drainLoop]
  | cons f fs ih =>
    intro d hnd
    rw [List.nodup_cons] at hnd
    obtain ⟨hf, hfs⟩ := hnd
    simp only [drainLoop, List.filterMap_cons]
    have hcong :
        fs.filterMap (fun g => (lookupRec (eraseRec d f) g).bind recPayload) =
          fs.filterMap (fun g => (lookupRec d g).bind recPayload) := by
      apply List.filterMap_congr
      intro g hg
      rw [lookupRec_eraseRec_ne d f g (fun he => hf (he ▸ hg))]
    cases hlk : lookupRec d f with
    | none => simp [hlk, ih (eraseRec d f) hfs, hcong]
    | some r =>
      cases hp : recPayload r with
      | none => simp [hlk, hp, ih (eraseRec d f) hfs, hcong]
      | some t => simp [hlk, hp, ih (eraseRec d f) hfs, hcong]

lemma mem_nameSort {f : String} {l : List String} : f ∈ nameSort l ↔ f ∈ l :=
  (List.perm_insertionSort nameLeR l).mem_iff

lemma nameSort_nodup {l : List String} (h : l.Nodup) : (nameSort l).Nodup :=
  ((List.perm_insertionSort nameLeR l).symm.nodup) h

lemma jsonNames_nodup {d : Dir} (h : (d.map Prod.fst).Nodup) : (jsonNames d).Nodup :=
  h.filter _

lemma mem_jsonNames {d : Dir} {f : String} :
    f ∈ jsonNames d ↔ f ∈ d.map Prod.fst ∧ strEndsWith f ".json" = true :=
  List.mem_filter

lemma drainIpcInput_fst (d : Dir) (hnd : (d.map Prod.fst).Nodup) :
    (drainIpcInput d).1 =
      (nameSort (jsonNames d)).filterMap (fun f => (lookupRec d f).bind recPayload) :=
  drainLoop_fst _ d (nameSort_nodup (jsonNames_nodup hnd))

lemma drainIpcInput_snd (d : Dir) :
    (drainIpcInput d).2 = d.filter (fun r => !(strEndsWith r.1 ".json")) := by
  unfold drainIpcInput
  rw [drainLoop_snd]
  apply List.filter_congr
  intro r hr
  have hmem : r.1 ∉ nameSort (jsonNames d) ↔ ¬ strEndsWith r.1 ".json" = true := by
    rw [mem_nameSort, mem_jsonNames]
    constructor
    · intro hn he
      exact hn ⟨List.mem_map_of_mem Prod.fst hr, he⟩
    · intro hne hand
      exact hne hand.2
  rcases hcase : strEndsWith r.1 ".json" with _ | _
  · simp [hmem, hcase]
  · simp [hmem, hcase]

lemma jsonNames_drained (d : Dir) : jsonNames ((drainIpcInput d).2) = [] := by
  rw [drainIpcInput_snd]
  apply List.filter_eq_nil_iff.mpr
  intro f hf
  rw [List.mem_map] at hf
  obtain ⟨r, hr, hfr⟩ := hf
  rw [List.mem_filter] at hr
  intro he
  rw [hfr] at hr
  simp [he] at hr

lemma drainIpcInput_drained (d : Dir) :
    drainIpcInput ((drainIpcInput d).2) = ([], (drainIpcInput d).2) := by
  unfold drainIpcInput
  rw [show nameSort (jsonNames ((drainLoop d (nameSort (jsonNames d))).2)) = [] by
        have h := jsonNames_drained d
        unfold drainIpcInput at h
        rw [h]; rfl]
  rfl

lemma framesOf_nil : framesOf [] = [] := rfl

lemma framesOf_cons_log (s : String) (es : List Emit) :
    framesOf (Emit.logLine s :: es) = framesOf es := rfl

lemma framesOf_cons_frame (o : ContainerOutput) (es : List Emit) :
    framesOf (Emit.frame o :: es) = o :: framesOf es := rfl

lemma stdoutLines_nil : stdoutLines [] = [] := rfl

lemma stdoutLines_cons (e : Emit) (es : List Emit) :
    stdoutLines (e :: es) =
      (emitLines e).filterMap (fun cl => if cl.1 = Channel.stdout then some cl.2 else none)
        ++ stdoutLines es := by
  simp [stdoutLines, outTrace, List.filterMap_append]

/-- The stdout stream of any emission list is exactly the concatenation of
its frames' marker-bounded line triples: `writeOutput` is the only stdout
writer, `log` writes to stderr. -/
lemma stdoutLines_eq_frames (es : List Emit) :
    stdoutLines es = (framesOf es).flatMap frameLines := by
  induction es with
  | nil => rfl
  | cons e es ih =>
    cases e with
    | frame o =>
      rw [stdoutLines_cons, framesOf_cons_frame, List.flatMap_cons, ih]
      simp [emitLines, List.filterMap_map, Function.comp_def, List.filterMap_some]
    | logLine s =>
      rw [stdoutLines_cons, framesOf_cons_log, ih]
      simp [emitLines]

lemma roundOutFrame_newSessionId (sid : String) (reply : BackendReply) (events : List Ev) :
    (roundOutFrame sid reply events).newSessionId = some sid := by
  cases reply <;> simp [roundOutFrame]

lemma roundOutFrame_error_iff (sid : String) (reply : BackendReply) (events : List Ev) :
    (roundOutFrame sid reply events).error.isSome ↔
      (roundOutFrame sid reply events).status = Status.error := by
  cases reply <;> simp [roundOutFrame]

/-- Unfolding of one loop iteration at the level of emitted frames: each
consumed round contributes its outcome frame, then — unless the sentinel
was present at the post-query check — the session-update frame, then the
frames of the continuation when the wait resolves with a message. -/
lemma framesOf_runLoop_cons (sid p : String) (ctx : RoundCtx) (rest : List RoundCtx) :
    framesOf (runLoop sid p (ctx :: rest)) =
      roundOutFrame sid ctx.reply ctx.events ::
        (if (shouldClose ctx.closeDir).1 then []
         else sessionUpdateFrame sid ::
           (match waitForIpcMessage ctx.polls with
            | some (some m) => framesOf (runLoop sid m rest)
            | _ => [])) := by
  simp only [runLoop]
  by_cases hc : (shouldClose ctx.closeDir).1
  · cases hr : ctx.reply <;> simp [hr, hc, framesOf]
  · rcases hw : waitForIpcMessage ctx.polls with _ | mo
    · cases hr : ctx.reply <;> simp [hr, hc, hw, framesOf]
    · rcases mo with _ | m
      · cases hr : ctx.reply <;> simp [hr, hc, hw, framesOf]
      · cases hr : ctx.reply <;> simp [hr, hc, hw, framesOf]

/-- "This string fits on one output line": it contains no line separator. -/
def singleLine (s : String) : Prop := '\n' ∉ s.data ∧ '\r' ∉ s.data

lemma hexDigit_ne_nl (n : Nat) : hexDigit n ≠ '\n' ∧ hexDigit n ≠ '\r' := by
  unfold hexDigit
  split <;> exact ⟨by decide, by decide⟩

lemma jsonEscapeChar_nl_free (c ch : Char) (hch : ch = '\n' ∨ ch = '\r') :
    ch ∉ jsonEscapeChar c := by
  unfold jsonEscapeChar
  split_ifs with h1 h2 h3 h4 h5 h6
  · rcases hch with h | h <;> subst h <;> decide
  · rcases hch with h | h <;> subst h <;> decide
  · rcases hch with h | h <;> subst h <;> decide
  · rcases hch with h | h <;> subst h <;> decide
  · rcases hch with h | h <;> subst h <;> decide
  · intro hmem
    have hd1 := hexDigit_ne_nl (c.toNat / 16)
    have hd2 := hexDigit_ne_nl (c.toNat % 16)
    rcases hch with h | h <;> subst h <;>
      simp only [List.mem_cons, List.not_mem_nil, or_false] at hmem <;>
      rcases hmem with h | h | h | h | h | h <;>
      first
        | exact absurd h.symm (by decide)
        | exact hd1.1 h.symm
        | exact hd1.2 h.symm
        | exact hd2.1 h.symm
        | exact hd2.2 h.symm
  · intro hmem
    simp only [List.mem_cons, List.not_mem_nil, or_false] at hmem
    rcases hch with h | h <;> subst h
    · exact h3 hmem.symm
    · exact h4 hmem.symm

lemma singleLine_jsonQuote (s : String) : singleLine (jsonQuote s) := by
  constructor <;>
  · intro hmem
    unfold jsonQuote at hmem
    rw [String.data_append, String.data_append] at hmem
    rcases List.mem_append.mp hmem with h | h
    · rcases List.mem_append.mp h with h | h
      · exact absurd h (by decide)
      · have hmk : (String.mk (s.data.flatMap jsonEscapeChar)).data = s.data.flatMap jsonEscapeChar := rfl
        rw [hmk] at h
        obtain ⟨c, _, hc⟩ := List.mem_flatMap.mp h
        exact jsonEscapeChar_nl_free c _ (by simp) hc
    · exact absurd h (by decide)

lemma singleLine_append {a b : String} (ha : singleLine a) (hb : singleLine b) :
    singleLine (a ++ b) := by
  constructor <;>
  · intro hmem
    rw [String.data_append] at hmem
    rcases List.mem_append.mp hmem with h | h
    · first | exact ha.1 h | exact ha.2 h
    · first | exact hb.1 h | exact hb.2 h

lemma singleLine_encodeOutput (o : ContainerOutput) : singleLine (encodeOutput o) := by
  obtain ⟨st, res, ns, er⟩ := o
  cases res <;> cases ns <;> cases er <;>
    simp only [encodeOutput] <;>
    (repeat' first
      | exact singleLine_jsonQuote _
      | exact ⟨by decide, by decide⟩
      | apply singleLine_append)

/-- Appending one event to a round's feed folds through `stepEvent`. -/
lemma processEvents_append_one (es : List Ev) (e : Ev) :
    processEvents (es ++ [e]) = stepEvent (processEvents es) e := by
  unfold processEvents
  rw [List.foldl_append]
  rfl

lemma not_mem_map_fst_eraseRec (d : Dir) (f : String) :
    f ∉ (eraseRec d f).map Prod.fst := by
  intro h
  rw [List.mem_map] at h
  obtain ⟨r, hr, hrf⟩ := h
  rw [eraseRec, List.mem_filter] at hr
  have := hr.2
  rw [hrf] at this
  simp at this

/-- Every frame a run emits is either some consumed round's outcome frame
or the session-update frame. -/
lemma frames_runLoop_shape (sid : String) :
    ∀ (script : List RoundCtx) (p : String) (o : ContainerOutput),
      o ∈ framesOf (runLoop sid p script) →
      (∃ ctx ∈ script, o = roundOutFrame sid ctx.reply ctx.events) ∨
        o = sessionUpdateFrame sid := by
  intro script
  induction script with
  | nil => intro p o ho; simp [runLoop, framesOf] at ho
  | cons ctx rest ih =>
    intro p o ho
    rw [framesOf_runLoop_cons] at ho
    rcases List.mem_cons.mp ho with h | h
    · exact Or.inl ⟨ctx, List.mem_cons_self _ _, h⟩
    · by_cases hc : (shouldClose ctx.closeDir).1
      · rw [if_pos hc] at h; simp at h
      · rw [if_neg hc] at h
        rcases List.mem_cons.mp h with h2 | h2
        · exact Or.inr h2
        · rcases hw : waitForIpcMessage ctx.polls with _ | mo
          · rw [hw] at h2; simp at h2
          · rcases mo with _ | m
            · rw [hw] at h2; simp at h2
            · rw [hw] at h2
              rcases ih m o h2 with ⟨c, hcm, he⟩ | he
              · exact Or.inl ⟨c, List.mem_cons_of_mem _ hcm, he⟩
              · exact Or.inr he

/-! ## C1 — session resolution -/

/-- Fixture: an Envelope carrying prior session id `"s1"`, and a backend
in which `"s1"` still exists and a fresh `session.create` would return
`"s2"`. -/
def ciC1 : ContainerInput :=
  ⟨"hi", some "s1", "group", "jid", true, none, [], none, none, none⟩

def beC1 : BackendSessions := ⟨["s1"], none, "s2"⟩

/-- C1, counterexample: the Envelope's prior session id `"s1"` is valid in
the backend, yet the worker's session resolution returns the freshly
created `"s2"` — not `"s1"` as the claim (and `resolveSessionSpec`, the
spec's wording) requires.  The runner never performs the existence
check. -/
theorem c1_counterexample :
    ciC1.sessionId = some "s1" ∧ "s1" ∈ beC1.existing ∧
    resolveSession ciC1 beC1 = Except.ok "s2" ∧
    resolveSessionSpec ciC1 beC1 = Except.ok "s1" ∧
    ("s2" : String) ≠ "s1" :=
  ⟨rfl, by decide, rfl, rfl, by decide⟩

/-- C1 (amended): the worker ignores any prior session identifier carried
by the Envelope and always creates a new backend session; the session id
used for the first round is the freshly created one whenever creation
succeeds. -/
theorem c1_session_always_created :
    ∀ (ci ci2 : ContainerInput) (b : BackendSessions),
      resolveSession ci b = resolveSession ci2 b ∧
      (b.createError = none → resolveSession ci b = Except.ok b.freshId) := by
  intro ci ci2 b
  refine ⟨rfl, fun h => ?_⟩
  unfold resolveSession sessionCreate
  rw [h]

/-- C1 witness: the amended theorem applied at the fixture. -/
theorem c1_session_always_created_witness :
    resolveSession ciC1 beC1 = Except.ok "s2" :=
  (c1_session_always_created ciC1 ciC1 beC1).2 rfl

/-! ## C9 — sentinel idempotence -/

/-- C9: the first `shouldClose` that observes the sentinel removes it and
returns `true`; afterwards (and whenever the sentinel is absent) it
returns `false` and leaves the directory unchanged; creating the sentinel
twice yields the same directory as creating it once, and `shouldClose`
observes it either way. -/
theorem c9_pollclose_idempotent :
    (∀ d : Dir, IPC_CLOSE_NAME ∈ d.map Prod.fst →
       (shouldClose d).1 = true ∧
       (shouldClose (shouldClose d).2).1 = false ∧
       (shouldClose (shouldClose d).2).2 = (shouldClose d).2) ∧
    (∀ d : Dir, IPC_CLOSE_NAME ∉ d.map Prod.fst → shouldClose d = (false, d)) ∧
    (∀ d : Dir, requestClose (requestClose d) = requestClose d) ∧
    (∀ d : Dir, (shouldClose (requestClose d)).1 = true) := by
  refine ⟨?_, ?_, ?_, ?_⟩
  · intro d h
    have h2 : (shouldClose d).2 = eraseRec d IPC_CLOSE_NAME := by simp [shouldClose, h]
    refine ⟨by simp [shouldClose, h], ?_, ?_⟩ <;>
      rw [h2] <;> unfold shouldClose <;>
      rw [if_neg (not_mem_map_fst_eraseRec d IPC_CLOSE_NAME)]
  · intro d h
    simp [shouldClose, h]
  · intro d
    by_cases h : IPC_CLOSE_NAME ∈ d.map Prod.fst
    · simp [requestClose, h]
    · simp [requestClose, h]
  · intro d
    by_cases h : IPC_CLOSE_NAME ∈ d.map Prod.fst
    · simp [requestClose, shouldClose, h]
    · simp [requestClose, shouldClose, h]

/-- Fixture: a mailbox holding the sentinel and one pending message. -/
def dC9 : Dir := [("_close", Rec.other), ("0001.json", Rec.message "x")]

/-- C9 witness: the theorem applied at the fixture. -/
theorem c9_pollclose_idempotent_witness :
    (shouldClose dC9).1 = true ∧
    (shouldClose (shouldClose dC9).2).1 = false ∧
    requestClose (requestClose dC9) = requestClose dC9 := by
  refine ⟨(c9_pollclose_idempotent.1 dC9 (by decide)).1,
          (c9_pollclose_idempotent.1 dC9 (by decide)).2.1,
          c9_pollclose_idempotent.2.2.1 dC9⟩

/-! ## C4 — close terminality and poll priority -/

/-- C4: (i) a poll that sees the sentinel resolves with `null` no matter
what messages sit beside it (`shouldClose` runs before `drainIpcInput`
inside `poll`); (ii) if the post-query check observes the sentinel, the
run is identical to the run with an empty continuation — no later round
starts, no frame is emitted for anything published after close — and its
frames are exactly the round's outcome frame; (iii) likewise when the
sentinel is observed by a poll of the wait. -/
theorem c4_close_terminal :
    (∀ d : Dir, IPC_CLOSE_NAME ∈ d.map Prod.fst → pollStep d = some none) ∧
    (∀ (sid p : String) (ctx : RoundCtx) (rest : List RoundCtx),
       (shouldClose ctx.closeDir).1 = true →
       runLoop sid p (ctx :: rest) = runLoop sid p [ctx] ∧
       framesOf (runLoop sid p (ctx :: rest)) = [roundOutFrame sid ctx.reply ctx.events]) ∧
    (∀ (sid p : String) (ctx : RoundCtx) (rest : List RoundCtx),
       (shouldClose ctx.closeDir).1 = false →
       waitForIpcMessage ctx.polls = some none →
       runLoop sid p (ctx :: rest) = runLoop sid p [ctx] ∧
       framesOf (runLoop sid p (ctx :: rest)) =
         [roundOutFrame sid ctx.reply ctx.events, sessionUpdateFrame sid]) := by
  refine ⟨?_, ?_, ?_⟩
  · intro d h
    simp [pollStep, shouldClose, h]
  · intro sid p ctx rest h
    constructor
    · simp [runLoop, h]
    · rw [framesOf_runLoop_cons, if_pos h]
  · intro sid p ctx rest h hw
    constructor
    · simp [runLoop, h, hw]
    · rw [framesOf_runLoop_cons, if_neg (by rw [h]; exact Bool.false_ne_true), hw]

/-- Fixture: after the round the sentinel is absent, and the first wait
poll observes the sentinel even though a message was published alongside
it. -/
def ctxC4 : RoundCtx :=
  ⟨.ok [⟨"text", some "hello"⟩], [], [],
   [[("_close", Rec.other), ("0001.json", Rec.message "late")]]⟩

def ctxC4b : RoundCtx := ⟨.ok [⟨"text", some "never"⟩], [], [], []⟩

/-- C4 witness: the theorem applied at the fixture — the sentinel-first
poll resolves `null`, and the run ignores the queued continuation. -/
theorem c4_close_terminal_witness :
    pollStep [("_close", Rec.other), ("0001.json", Rec.message "late")] = some none ∧
    framesOf (runLoop "s1" "hi" [ctxC4, ctxC4b]) =
      [roundOutFrame "s1" ctxC4.reply ctxC4.events, sessionUpdateFrame "s1"] :=
  ⟨c4_close_terminal.1 _ (by decide),
   (c4_close_terminal.2.2 "s1" "hi" ctxC4 [ctxC4b] (by decide) (by decide)).2⟩

/-! ## C2 — frames per round -/

/-- Fixture: one round that succeeds with text `"hello"`; the sentinel is
absent at the post-query check and is observed by the first wait poll. -/
def ctxC2 : RoundCtx :=
  ⟨.ok [⟨"text", some "hello"⟩], [], [], [[("_close", Rec.other)]]⟩

/-- C2, counterexample: a single completed round (one `session.prompt`
call, the script consumed is one `RoundCtx`) emits TWO marker-bounded
Result Frames — the outcome frame of line 252 and the extra session-update
frame of line 275 — so "exactly one Result Frame per round" fails. -/
theorem c2_counterexample :
    framesOf (runLoop "s1" "hi" [ctxC2]) =
      [⟨Status.success, some "hello", some "s1", none⟩,
       ⟨Status.success, none, some "s1", none⟩] := by decide

/-- C2 (amended): every consumed round emits exactly one outcome frame
(success or error), followed — whenever the close sentinel was not
observed immediately after the query — by exactly one extra session-update
frame (an empty-result success frame); frames of later rounds follow only
when the wait resolves with a message. -/
theorem c2_frames_per_round :
    ∀ (sid p : String) (ctx : RoundCtx) (rest : List RoundCtx),
      framesOf (runLoop sid p (ctx :: rest)) =
        roundOutFrame sid ctx.reply ctx.events ::
          (if (shouldClose ctx.closeDir).1 then []
           else sessionUpdateFrame sid ::
             (match waitForIpcMessage ctx.polls with
              | some (some m) => framesOf (runLoop sid m rest)
              | _ => [])) :=
  fun sid p ctx rest => framesOf_runLoop_cons sid p ctx rest

/-! ## C3 — backend errors (timeouts included) are not terminal -/

/-- Fixture: a round whose backend call rejects with a timeout error,
while a follow-up message is already waiting in the mailbox. -/
def ctxC3a : RoundCtx :=
  ⟨.err "Backend call timed out", [], [], [[("0001.json", Rec.message "again")]]⟩

def ctxC3b : RoundCtx := ⟨.ok [⟨"text", some "done"⟩], [], [], []⟩

/-- C3, counterexample: after the timeout-error frame the worker does NOT
proceed to CLOSING — it emits the session-update frame, keeps polling,
picks up the queued message, and runs a second round whose frames appear
after the error frame. -/
theorem c3_counterexample :
    framesOf (runLoop "s1" "hi" [ctxC3a, ctxC3b]) =
      [⟨Status.error, none, some "s1", some "Backend call timed out"⟩,
       ⟨Status.success, none, some "s1", none⟩,
       ⟨Status.success, some "done", some "s1", none⟩,
       ⟨Status.success, none, some "s1", none⟩] := by decide

/-- C3 (amended): a backend-call error — a timeout is just one such error
message, the `catch` on line 257 does not distinguish — produces an error
Result Frame and the worker then continues exactly like after a success:
it emits the session-update frame and waits for further input; it leaves
only via the close sentinel. -/
theorem c3_error_not_terminal :
    ∀ (sid p m nextMsg : String) (ctx : RoundCtx) (rest : List RoundCtx),
      ctx.reply = BackendReply.err m →
      (shouldClose ctx.closeDir).1 = false →
      waitForIpcMessage ctx.polls = some (some nextMsg) →
      framesOf (runLoop sid p (ctx :: rest)) =
        ContainerOutput.mk Status.error none (some sid) (some m) ::
          sessionUpdateFrame sid :: framesOf (runLoop sid nextMsg rest) := by
  intro sid p m nextMsg ctx rest hr hc hw
  rw [framesOf_runLoop_cons, if_neg (by rw [hc]; exact Bool.false_ne_true), hw, hr]
  rfl

/-- C3 witness: the amended theorem applied at the fixture. -/
theorem c3_error_not_terminal_witness :
    framesOf (runLoop "s1" "hi" [ctxC3a, ctxC3b]) =
      ContainerOutput.mk Status.error none (some "s1") (some "Backend call timed out") ::
        sessionUpdateFrame "s1" :: framesOf (runLoop "s1" "again" [ctxC3b]) :=
  c3_error_not_terminal "s1" "hi" "Backend call timed out" "again" ctxC3a [ctxC3b]
    rfl (by decide) (by decide)

/-! ## C10 — the session id carried by frames never changes -/

/-- C10: every Result Frame any run emits — outcome frames of successful
and failed rounds alike, and the extra session-update frames — carries
`newSessionId = sid`, the single id obtained at initialization (`sessionId`
is a `const` bound once at line 192). -/
theorem c10_session_constant :
    ∀ (sid p : String) (script : List RoundCtx) (o : ContainerOutput),
      o ∈ framesOf (runLoop sid p script) → o.newSessionId = some sid := by
  intro sid p script o ho
  rcases frames_runLoop_shape sid script p o ho with ⟨ctx, _, he⟩ | he
  · rw [he]; exact roundOutFrame_newSessionId sid ctx.reply ctx.events
  · rw [he]; rfl

/-- Fixture for the C10 witness: an error round followed by a success
round. -/
def ctxC10a : RoundCtx :=
  ⟨.err "boom", [], [], [[("0001.json", Rec.message "go on")]]⟩

def ctxC10b : RoundCtx := ⟨.ok [⟨"text", some "fine"⟩], [], [], []⟩

/-- C10 witness: the theorem applied to a concrete frame of a concrete
two-round run. -/
theorem c10_session_constant_witness :
    (ContainerOutput.mk Status.error none (some "sX") (some "boom")).newSessionId = some "sX" :=
  c10_session_constant "sX" "hi" [ctxC10a, ctxC10b] _ (by decide)

/-! ## C5 — drain order, deletion, sentinel preservation -/

/-- C5: `drainIpcInput` (i) returns, in JavaScript-sort order of the
record names, exactly the payload of each listed `.json` record; (ii)
leaves exactly the non-`.json` records behind (every record it considered
is deleted); (iii) in particular never touches the Close Sentinel, whose
name does not end in `.json`; (iv) an immediately subsequent drain returns
the empty list and changes nothing; and (v) when the `.json` names are
already sorted in the directory (publish) order — which the monotone
naming scheme guarantees — the returned payloads are exactly in publish
order. -/
theorem c5_drain_order_and_delete (d : Dir) (hnd : (d.map Prod.fst).Nodup) :
    (drainIpcInput d).1 =
      (nameSort (jsonNames d)).filterMap (fun f => (lookupRec d f).bind recPayload) ∧
    (drainIpcInput d).2 = d.filter (fun r => !(strEndsWith r.1 ".json")) ∧
    (∀ r ∈ d, r.1 = IPC_CLOSE_NAME → r ∈ (drainIpcInput d).2) ∧
    drainIpcInput ((drainIpcInput d).2) = ([], (drainIpcInput d).2) ∧
    (List.Sorted nameLeR (jsonNames d) →
      (drainIpcInput d).1 =
        (jsonNames d).filterMap (fun f => (lookupRec d f).bind recPayload)) := by
  refine ⟨drainIpcInput_fst d hnd, drainIpcInput_snd d, ?_, drainIpcInput_drained d, ?_⟩
  · intro r hr hname
    rw [drainIpcInput_snd, List.mem_filter]
    refine ⟨hr, ?_⟩
    rw [hname]
    decide
  · intro hs
    rw [drainIpcInput_fst d hnd, show nameSort (jsonNames d) = jsonNames d from hs.insertionSort_eq]

/-- Fixture: two messages published in order, plus the sentinel. -/
def dC5 : Dir :=
  [("0001.json", Rec.message "a"), ("0002.json", Rec.message "b"), ("_close", Rec.other)]

/-- C5 witness: the theorem applied at the fixture and evaluated. -/
theorem c5_drain_order_and_delete_witness :
    (drainIpcInput dC5).1 = ["a", "b"] ∧
    (drainIpcInput dC5).2 = [("_close", Rec.other)] ∧
    drainIpcInput ((drainIpcInput dC5).2) = ([], [("_close", Rec.other)]) := by
  have h := c5_drain_order_and_delete dC5 (by decide)
  refine ⟨?_, ?_, ?_⟩
  · rw [h.1]; decide
  · rw [h.2.1]; decide
  · rw [h.2.2.2.1, h.2.1]; decide

/-! ## C8 — malformed records, lazy root creation, deletion races -/

/-- C8: a record whose content fails to parse (or whose file vanished
between listing and reading) contributes no payload (`recPayload` is
`none` for it) while every well-formed record's payload is still returned
in listed order; every `.json` record — malformed ones included — is
deleted by the drain, so none is ever retried; draining a missing mailbox
root creates it and succeeds with the empty result; and the sentinel check
on a missing root reports "not present" rather than failing. -/
theorem c8_malformed_dropped (d : Dir) (hnd : (d.map Prod.fst).Nodup) :
    (drainIpcInput d).1 =
      (nameSort (jsonNames d)).filterMap (fun f => (lookupRec d f).bind recPayload) ∧
    recPayload Rec.malformed = none ∧
    recPayload Rec.vanished = none ∧
    (∀ r ∈ d, strEndsWith r.1 ".json" = true → r ∉ (drainIpcInput d).2) ∧
    drainIpcInputRoot none = ([], []) ∧
    shouldCloseRoot none = (false, none) := by
  refine ⟨drainIpcInput_fst d hnd, rfl, rfl, ?_, rfl, rfl⟩
  intro r hr he hmem
  rw [drainIpcInput_snd, List.mem_filter] at hmem
  rw [he] at hmem
  simp at hmem

/-- Fixture: a good message, a malformed record, a record lost to a
deletion race, and a non-JSON bystander file. -/
def dC8 : Dir :=
  [("0001.json", Rec.message "good"), ("0002.json", Rec.malformed),
   ("0003.json", Rec.vanished), ("note.txt", Rec.other)]

/-- C8 witness: the theorem applied at the fixture — only the well-formed
payload is returned, the malformed record is gone (not retried), and the
missing-root drain yields the empty result. -/
theorem c8_malformed_dropped_witness :
    (drainIpcInput dC8).1 = ["good"] ∧
    ("0002.json", Rec.malformed) ∉ (drainIpcInput dC8).2 ∧
    drainIpcInputRoot none = ([], []) := by
  have h := c8_malformed_dropped dC8 (by decide)
  refine ⟨?_, ?_, h.2.2.2.2.1⟩
  · rw [h.1]; decide
  · exact h.2.2.2.1 _ (by decide) (by decide)

/-! ## C6 — frame format and channel separation -/

/-- C6: the stdout stream of any run is exactly the concatenation of its
frames' three lines — start marker, one line of JSON, end marker — so all
diagnostic output (stderr) lies outside every marker pair; the JSON line
contains no line separator, `status` is `success` or `error`, and the
`error` field is present exactly on error frames. -/
theorem c6_frame_format :
    ∀ (sid p : String) (script : List RoundCtx),
      stdoutLines (runLoop sid p script) =
        (framesOf (runLoop sid p script)).flatMap frameLines ∧
      (∀ o ∈ framesOf (runLoop sid p script),
        frameLines o = [OUTPUT_START_MARKER, encodeOutput o, OUTPUT_END_MARKER] ∧
        singleLine (encodeOutput o) ∧
        (o.status = Status.success ∨ o.status = Status.error) ∧
        (o.error.isSome ↔ o.status = Status.error)) := by
  intro sid p script
  refine ⟨stdoutLines_eq_frames _, ?_⟩
  intro o ho
  refine ⟨rfl, singleLine_encodeOutput o, ?_, ?_⟩
  · cases hst : o.status
    · exact Or.inl rfl
    · exact Or.inr rfl
  · rcases frames_runLoop_shape sid script p o ho with ⟨ctx, _, he⟩ | he
    · rw [he]; exact roundOutFrame_error_iff sid ctx.reply ctx.events
    · rw [he]; simp [sessionUpdateFrame]

/-- Fixture: one successful round, script exhausted while waiting. -/
def ctxC6 : RoundCtx := ⟨.ok [⟨"text", some "hello"⟩], [], [], []⟩

/-- C6 witness: the theorem's per-frame part applied to a concrete frame
of a concrete run. -/
theorem c6_frame_format_witness :
    frameLines ⟨Status.success, some "hello", some "s1", none⟩ =
      [OUTPUT_START_MARKER, encodeOutput ⟨Status.success, some "hello", some "s1", none⟩,
       OUTPUT_END_MARKER] ∧
    singleLine (encodeOutput ⟨Status.success, some "hello", some "s1", none⟩) ∧
    ((Status.success = Status.success ∨ Status.success = Status.error)) ∧
    ((none : Option String).isSome ↔ Status.success = Status.error) :=
  (c6_frame_format "s1" "hi" [ctxC6]).2 ⟨Status.success, some "hello", some "s1", none⟩ (by decide)

/-! ## C7 — empty-reply fallback and cumulative-overwrite tracking -/

/-- C7: when the primary reply carries no text content but the
notification feed observed some text, the round's frame is a success
carrying the latest observed text (never an empty success); and appending
a fresh cumulative text notification to any event history overwrites the
tracked value — the result is exactly the new text, independent of the
history. -/
theorem c7_fallback_overwrite :
    (∀ (sid : String) (parts : List MsgPart) (events : List Ev),
       extractText parts = "" → processEvents events ≠ "" →
       roundOutFrame sid (BackendReply.ok parts) events =
         ⟨Status.success, some (processEvents events), some sid, none⟩) ∧
    (∀ (es : List Ev) (t : String), t ≠ "" →
       processEvents (es ++ [⟨"message.part.updated", some ⟨"text", some t⟩⟩]) = t) := by
  constructor
  · intro sid parts events h1 h2
    simp only [roundOutFrame]
    rw [h1]
    simp [h2]
  · intro es t ht
    rw [processEvents_append_one]
    simp [stepEvent, ht]

/-- C7 witness: the theorem applied at concrete inputs — a reply whose
only part is a non-text part falls back to the latest notification text,
and a second cumulative notification replaces (does not extend) the
first. -/
theorem c7_fallback_overwrite_witness :
    roundOutFrame "s1" (BackendReply.ok [⟨"tool-call", some "x"⟩])
        [⟨"message.part.updated", some ⟨"text", some "partial"⟩⟩] =
      ⟨Status.success, some "partial", some "s1", none⟩ ∧
    processEvents ([⟨"message.part.updated", some ⟨"text", some "old"⟩⟩] ++
        [⟨"message.part.updated", some ⟨"text", some "new"⟩⟩]) = "new" := by
  constructor
  · have h := c7_fallback_overwrite.1 "s1" [⟨"tool-call", some "x"⟩]
      [⟨"message.part.updated", some ⟨"text", some "partial"⟩⟩] (by decide) (by decide)
    exact h
  · exact c7_fallback_overwrite.2 [⟨"message.part.updated", some ⟨"text", some "old"⟩⟩]
      "new" (by decide)
